import Mathlib

/-!
# Verification of the HKDF parser backend contract (`parser/parser_hkdf.h`)

Shallow embedding of the RFC 5869 HKDF backend contract and dispatch
mechanism declared in `parser/parser_hkdf.h`.  The header itself declares
the data model (`struct hkdf_data`), the backend callback contract
(`struct hkdf_backend`, returning `0` on success and `!= 0` on error) and
the registration entry point (`void register_hkdf_impl(...)`).  The
derivation semantics, registry state and dispatch path are implemented
outside this header; they are modelled here from the specification
(generate/validate dual mode, RFC 5869 extract-and-expand, last-
registration-wins registry, fail-fast registry miss).

Conventions of the embedding:
* a byte is a `Nat` (< 256 for well-formed data); a `struct buffer` is a
  `List Nat`, the empty list standing for a NULL/zero-length buffer;
* 32-bit machine arithmetic is `Nat` reduced `% 2 ^ 32` wherever overflow
  matters;
* a backend call returning `int` status is an `Option hkdf_data`:
  `some` is status `0` (success) and carries the record after the call's
  in-place mutation, `none` is a nonzero (operational-failure) status.
-/

/-! ## 32-bit word arithmetic and SHA-256

Modelled from the spec: the concrete hash/HMAC primitives are delegated to
the backend and are not part of the header under verification ("the
concrete hash/HMAC primitive implementations (delegated to the backend,
not reimplemented here)").  SHA-256 per FIPS 180-4 is provided so that the
supported-hash table and the RFC 5869 Test Case 1 vector can be evaluated
concretely.
-/

/-- Truncate to a 32-bit word. -/
def w32 (x : Nat) : Nat := x % 4294967296

/-- 32-bit modular addition. -/
def add32 (a b : Nat) : Nat := (a + b) % 4294967296

/-- Right rotation of a 32-bit word by `n` places (`0 < n < 32`). -/
def rotr32 (x n : Nat) : Nat := w32 ((x >>> n) ||| (x <<< (32 - n)))

/-- SHA-256 `Ch(x,y,z)`; `x` is a 32-bit word, so complement is xor with
`2^32 - 1`. -/
def sha2ch (x y z : Nat) : Nat := (x &&& y) ^^^ ((x ^^^ 4294967295) &&& z)

/-- SHA-256 `Maj(x,y,z)`. -/
def sha2maj (x y z : Nat) : Nat := (x &&& y) ^^^ (x &&& z) ^^^ (y &&& z)

/-- SHA-256 `Σ₀`. -/
def bsig0 (x : Nat) : Nat := rotr32 x 2 ^^^ rotr32 x 13 ^^^ rotr32 x 22

/-- SHA-256 `Σ₁`. -/
def bsig1 (x : Nat) : Nat := rotr32 x 6 ^^^ rotr32 x 11 ^^^ rotr32 x 25

/-- SHA-256 `σ₀`. -/
def ssig0 (x : Nat) : Nat := rotr32 x 7 ^^^ rotr32 x 18 ^^^ (x >>> 3)

/-- SHA-256 `σ₁`. -/
def ssig1 (x : Nat) : Nat := rotr32 x 17 ^^^ rotr32 x 19 ^^^ (x >>> 10)

/-- The 64 SHA-256 round constants (FIPS 180-4 §4.2.2, written in
decimal). -/
def sha256K : List Nat :=
  [1116352408, 1899447441, 3049323471, 3921009573,
   961987163, 1508970993, 2453635748, 2870763221,
   3624381080, 310598401, 607225278, 1426881987,
   1925078388, 2162078206, 2614888103, 3248222580,
   3835390401, 4022224774, 264347078, 604807628,
   770255983, 1249150122, 1555081692, 1996064986,
   2554220882, 2821834349, 2952996808, 3210313671,
   3336571891, 3584528711, 113926993, 338241895,
   666307205, 773529912, 1294757372, 1396182291,
   1695183700, 1986661051, 2177026350, 2456956037,
   2730485921, 2820302411, 3259730800, 3345764771,
   3516065817, 3600352804, 4094571909, 275423344,
   430227734, 506948616, 659060556, 883997877,
   958139571, 1322822218, 1537002063, 1747873779,
   1955562222, 2024104815, 2227730452, 2361852424,
   2428436474, 2756734187, 3204031479, 3329325298]

/-- The SHA-256 working state: eight 32-bit words. -/
structure Sha256State where
  a : Nat
  b : Nat
  c : Nat
  d : Nat
  e : Nat
  f : Nat
  g : Nat
  h : Nat
  deriving DecidableEq

/-- SHA-256 initial hash value (FIPS 180-4 §5.3.3, written in
decimal). -/
def sha256IV : Sha256State :=
  ⟨1779033703, 3144134277, 1013904242, 2773480762,
   1359893119, 2600822924, 528734635, 1541459225⟩

/-- `n`-byte big-endian serialization of `v` (most significant byte
first). -/
def bytesOfNatBE : Nat → Nat → List Nat
  | 0, _ => []
  | n + 1, v => bytesOfNatBE n (v >>> 8) ++ [v % 256]

/-- Pack a byte list into 32-bit big-endian words; a trailing fragment of
fewer than four bytes is dropped (never arises on padded input). -/
def wordsOfBytes : List Nat → List Nat
  | b0 :: b1 :: b2 :: b3 :: rest =>
      ((b0 <<< 24) ||| (b1 <<< 16) ||| (b2 <<< 8) ||| b3) :: wordsOfBytes rest
  | _ => []

/-- SHA-256 padding (FIPS 180-4 §5.1.1): append `0x80`, then zero bytes up
to 56 mod 64, then the 8-byte big-endian bit length. -/
def sha256Pad (msg : List Nat) : List Nat :=
  let l := msg.length
  msg ++ [0x80] ++ List.replicate ((119 - l % 64) % 64) 0 ++ bytesOfNatBE 8 (8 * l)

/-- Extend a message schedule by one word
(`W[t] = σ₁(W[t-2]) + W[t-7] + σ₀(W[t-15]) + W[t-16]`). -/
def schedStep (ws : List Nat) : List Nat :=
  let t := ws.length
  ws ++ [add32 (add32 (ssig1 (ws.getD (t - 2) 0)) (ws.getD (t - 7) 0))
               (add32 (ssig0 (ws.getD (t - 15) 0)) (ws.getD (t - 16) 0))]

/-- Iterate `schedStep` a given number of times (48, to grow 16 words to
64). -/
def schedIter : Nat → List Nat → List Nat
  | 0, ws => ws
  | n + 1, ws => schedIter n (schedStep ws)

/-- One SHA-256 round, consuming `K[t] + W[t]` (already combined). -/
def sha256Round (st : Sha256State) (kw : Nat) : Sha256State :=
  let t1 := add32 st.h (add32 (bsig1 st.e) (add32 (sha2ch st.e st.f st.g) kw))
  let t2 := add32 (bsig0 st.a) (sha2maj st.a st.b st.c)
  ⟨add32 t1 t2, st.a, st.b, st.c, add32 st.d t1, st.e, st.f, st.g⟩

/-- Compress one 16-word block into the state (FIPS 180-4 §6.2.2). -/
def sha256Block (st : Sha256State) (block : List Nat) : Sha256State :=
  let ws := schedIter 48 block
  let st' := (List.zipWith (fun k w => add32 k w) sha256K ws).foldl sha256Round st
  ⟨add32 st.a st'.a, add32 st.b st'.b, add32 st.c st'.c, add32 st.d st'.d,
   add32 st.e st'.e, add32 st.f st'.f, add32 st.g st'.g, add32 st.h st'.h⟩

/-- Fold `sha256Block` over successive 16-word chunks; `fuel` bounds the
number of steps (the word count suffices). -/
def sha256Chunks : Nat → Sha256State → List Nat → Sha256State
  | 0, st, _ => st
  | _ + 1, st, [] => st
  | fuel + 1, st, ws => sha256Chunks fuel (sha256Block st (ws.take 16)) (ws.drop 16)

/-- SHA-256 of a byte list, as a 32-byte digest. -/
def sha256 (msg : List Nat) : List Nat :=
  let ws := wordsOfBytes (sha256Pad msg)
  let st := sha256Chunks ws.length sha256IV ws
  bytesOfNatBE 4 st.a ++ bytesOfNatBE 4 st.b ++ bytesOfNatBE 4 st.c ++
  bytesOfNatBE 4 st.d ++ bytesOfNatBE 4 st.e ++ bytesOfNatBE 4 st.f ++
  bytesOfNatBE 4 st.g ++ bytesOfNatBE 4 st.h

/-- HMAC key normalization (FIPS 198-1): hash keys longer than the 64-byte
block, then zero-pad to the block size. -/
def hmacPadKey (key : List Nat) : List Nat :=
  let k0 := if 64 < key.length then sha256 key else key
  k0 ++ List.replicate (64 - k0.length) 0

/-- HMAC-SHA-256 (FIPS 198-1). -/
def hmacSHA256 (key msg : List Nat) : List Nat :=
  let k0 := hmacPadKey key
  sha256 ((k0.map (fun b => b ^^^ 0x5c)) ++
          sha256 ((k0.map (fun b => b ^^^ 0x36)) ++ msg))

/-! ## RFC 5869 HKDF derivation

Modelled from the spec (§4.2 "Derivation algorithm"): the backend
implementation behind `hkdf_backend.hkdf` is not part of the header under
verification.  The functions are parametric in the HMAC primitive `hm`
and its output length in bytes `hLen`, instantiated with HMAC-SHA-256 for
the supported-hash table below.
-/

/-- Expand-phase block `T(i)`
(`T(0)` empty, `T(i) = HMAC(PRK, T(i-1) || info || i)`). -/
def hkdfT (hm : List Nat → List Nat → List Nat) (prk info : List Nat) :
    Nat → List Nat
  | 0 => []
  | i + 1 => hm prk (hkdfT hm prk info i ++ info ++ [(i + 1) % 256])

/-- Concatenation `T(1) || T(2) || … || T(n)` of expand-phase blocks. -/
def hkdfOKM (hm : List Nat → List Nat → List Nat) (prk info : List Nat) :
    Nat → List Nat
  | 0 => []
  | n + 1 => hkdfOKM hm prk info n ++ hkdfT hm prk info (n + 1)

/-- Extract phase: `PRK = HMAC(salt, IKM)`, an empty salt replaced by an
all-zero buffer of the hash's output length. -/
def hkdfExtract (hm : List Nat → List Nat → List Nat) (hLen : Nat)
    (salt ikm : List Nat) : List Nat :=
  hm (if salt = [] then List.replicate hLen 0 else salt) ikm

/-- Full HKDF computation: `none` on an operational length failure
(requested bit length zero, or above `255 ×` the hash output bit length),
otherwise the derived key material, truncated to the requested length in
bytes (bit length rounded up). -/
def hkdfCompute (hm : List Nat → List Nat → List Nat) (hLen : Nat)
    (salt ikm info : List Nat) (dkmlenBits : Nat) : Option (List Nat) :=
  if dkmlenBits = 0 then none
  else if 255 * (8 * hLen) < dkmlenBits then none
  else
    let prk := hkdfExtract hm hLen salt ikm
    let nbytes := (dkmlenBits + 7) / 8
    let nblocks := (nbytes + (hLen - 1)) / hLen
    some ((hkdfOKM hm prk info nblocks).take nbytes)

/-! ## The KDF test record and the backend derive call -/

/-- The opaque per-call variant selector (`flags_t` in `parser_flags.h`,
external to this core), passed through unexamined. -/
abbrev flags_t := Nat

/-- Shallow embedding of `struct hkdf_data` (`parser_hkdf.h`): buffers are
byte lists, the empty list standing for a NULL/zero-length buffer;
`dkmlen` is the requested output length in bits; `dkm` is the dual-purpose
in/out buffer; the five trailing fields belong to the one-step KDF variant
and are inert for the RFC 5869 construction. -/
structure hkdf_data where
  hash : Nat
  dkmlen : Nat
  z : List Nat
  salt : List Nat
  info : List Nat
  dkm : List Nat
  validity_success : Nat
  fixed_info_pattern : List Nat
  fi_partyU : List Nat
  fi_partyU_ephem : List Nat
  fi_partyV : List Nat
  fi_partyV_ephem : List Nat
  deriving DecidableEq

/-- The two call modes of the dual-purpose `dkm` buffer. -/
inductive HkdfMode where
  | generate
  | validate
  deriving DecidableEq

/-- Mode selection, exactly as documented on `hkdf_data.dkm`: an empty
(NULL) `dkm` buffer on entry selects generate mode, a non-empty one
selects validate mode.  Reads no other field and no flags. -/
def callMode (d : hkdf_data) : HkdfMode :=
  if d.dkm = [] then HkdfMode.generate else HkdfMode.validate

/-- Modelled from the spec: the backend derive call behind
`hkdf_backend.hkdf` for the pure HKDF (RFC 5869) variant, parametric in
the HMAC primitive.  `some` is status `0` (success) carrying the mutated
record, `none` a nonzero operational-failure status.  In generate mode the
computed key material is written into `dkm`; in validate mode the record's
`dkm` is compared byte-for-byte against the computed value and
`validity_success` is set to `1` (match) or `0` (mismatch), the status
reporting success either way.  The flags are passed through unexamined. -/
def hkdf_derive (hm : List Nat → List Nat → List Nat) (hLen : Nat)
    (d : hkdf_data) (parsed_flags : flags_t) : Option hkdf_data :=
  match hkdfCompute hm hLen d.salt d.z d.info d.dkmlen with
  | none => none
  | some dk =>
      if d.dkm = [] then some { d with dkm := dk }
      else some { d with validity_success := if d.dkm = dk then 1 else 0 }

/-- Modelled from the spec: the 64-bit hash-identifier enumeration is
defined outside this core; one supported identifier (SHA-256) is modelled
here, every other identifier being unsupported. -/
def ACVP_SHA256 : Nat := 256

/-- Supported-hash table: the HMAC primitive and its output byte length
for a hash identifier, `none` for an unsupported identifier (an
operational failure). -/
def hashImpl (hash : Nat) :
    Option ((List Nat → List Nat → List Nat) × Nat) :=
  if hash = ACVP_SHA256 then some (hmacSHA256, 32) else none

/-- Modelled from the spec: a concrete backend implementation of
`hkdf_backend.hkdf` — look up `data.hash` in the supported-hash table
(unsupported hash is an operational failure) and run the RFC 5869
derivation. -/
def hkdf_backend_impl (d : hkdf_data) (parsed_flags : flags_t) :
    Option hkdf_data :=
  match hashImpl d.hash with
  | none => none
  | some (hm, hLen) => hkdf_derive hm hLen d parsed_flags

/-! ## Registry and dispatch

Modelled from the spec (§4.1): `register_hkdf_impl` is only declared in
the header; its implementation stores the single live backend, each
registration unconditionally replacing any prior one.  The C function
returns `void` and mutates process-wide state; the state is passed
explicitly here, the function returning only the new registry state. -/

/-- A registered backend implementation (the function pointer held by
`struct hkdf_backend`). -/
abbrev HkdfBackend := hkdf_data → flags_t → Option hkdf_data

/-- Registration: unconditionally replace whatever was registered before
(last registration wins; not additive, no duplicate validation). -/
def register_hkdf_impl (implementation : HkdfBackend)
    (st : Option HkdfBackend) : Option HkdfBackend :=
  some implementation

/-- The registry state after a sequence of registrations, starting from
the initial (empty) state. -/
def registrations (l : List HkdfBackend) : Option HkdfBackend :=
  l.foldl (fun st impl => register_hkdf_impl impl st) none

/-- Outcome of a dispatch: a registry miss (no backend registered — a
configuration error, fail fast), a nonzero operational-failure status
from the backend, or success with the mutated record. -/
inductive DispatchResult where
  | registryMiss
  | opFailure
  | ok (d : hkdf_data)
  deriving DecidableEq

/-- Modelled from the spec: the dispatch path — fail fast with a
`registryMiss` (distinct from an operational failure) when no backend has
been registered, otherwise call the registered backend. -/
def hkdf_dispatch (st : Option HkdfBackend) (d : hkdf_data)
    (parsed_flags : flags_t) : DispatchResult :=
  match st with
  | none => DispatchResult.registryMiss
  | some impl =>
      match impl d parsed_flags with
      | none => DispatchResult.opFailure
      | some d' => DispatchResult.ok d'

/-! ## Concrete records -/

/-- RFC 5869 Test Case 1 as a KDF test record with an empty `dkm` buffer
(generate mode): SHA-256, IKM = 22 bytes of `0x0b`, the 13-byte salt,
the 10-byte info, requested length 336 bits. -/
def hkdf_tc1 : hkdf_data :=
  { hash := ACVP_SHA256, dkmlen := 336,
    z := List.replicate 22 0x0b,
    salt := [0x00, 0x01, 0x02, 0x03, 0x04, 0x05, 0x06,
             0x07, 0x08, 0x09, 0x0a, 0x0b, 0x0c],
    info := [0xf0, 0xf1, 0xf2, 0xf3, 0xf4, 0xf5, 0xf6, 0xf7, 0xf8, 0xf9],
    dkm := [], validity_success := 0,
    fixed_info_pattern := [], fi_partyU := [], fi_partyU_ephem := [],
    fi_partyV := [], fi_partyV_ephem := [] }

/-- The 42-byte derived key material of RFC 5869 Test Case 1. -/
def hkdf_tc1_okm : List Nat :=
  [0x3c, 0xb2, 0x5f, 0x25, 0xfa, 0xac, 0xd5, 0x7a, 0x90, 0x43, 0x4f, 0x64,
   0xd0, 0x36, 0x2f, 0x2a, 0x2d, 0x2d, 0x0a, 0x90, 0xcf, 0x1a, 0x5a, 0x4c,
   0x5d, 0xb0, 0x2d, 0x56, 0xec, 0xc4, 0xc5, 0xbf, 0x34, 0x00, 0x72, 0x08,
   0xd5, 0xb8, 0x87, 0x18, 0x58, 0x65]

/-- RFC 5869 Test Case 1 resubmitted in validate mode with a corrupted
`dkm` buffer: the low bit of the first byte is flipped
(`0x3c` to `0x3d`). -/
def hkdf_tc1_corrupt : hkdf_data :=
  { hkdf_tc1 with dkm :=
      [0x3d, 0xb2, 0x5f, 0x25, 0xfa, 0xac, 0xd5, 0x7a, 0x90, 0x43, 0x4f,
       0x64, 0xd0, 0x36, 0x2f, 0x2a, 0x2d, 0x2d, 0x0a, 0x90, 0xcf, 0x1a,
       0x5a, 0x4c, 0x5d, 0xb0, 0x2d, 0x56, 0xec, 0xc4, 0xc5, 0xbf, 0x34,
       0x00, 0x72, 0x08, 0xd5, 0xb8, 0x87, 0x18, 0x58, 0x65] }

/-- A field-by-field copy of `hkdf_tc1`, written out as a distinct
definition (used to exercise determinism across two syntactically
different records with identical contents). -/
def hkdf_tc1_again : hkdf_data :=
  { hash := 256, dkmlen := 336,
    z := List.replicate 22 0x0b,
    salt := [0x00, 0x01, 0x02, 0x03, 0x04, 0x05, 0x06,
             0x07, 0x08, 0x09, 0x0a, 0x0b, 0x0c],
    info := [0xf0, 0xf1, 0xf2, 0xf3, 0xf4, 0xf5, 0xf6, 0xf7, 0xf8, 0xf9],
    dkm := [], validity_success := 0,
    fixed_info_pattern := [], fi_partyU := [], fi_partyU_ephem := [],
    fi_partyV := [], fi_partyV_ephem := [] }

/-- `hkdf_tc1` with junk in the five one-step-KDF fields, which the pure
HKDF variant must neither read nor modify. -/
def hkdf_tc1_junkfi : hkdf_data :=
  { hkdf_tc1 with
    fixed_info_pattern := [0xde, 0xad], fi_partyU := [0xbe],
    fi_partyU_ephem := [0xef], fi_partyV := [0x01, 0x02],
    fi_partyV_ephem := [0x03] }

/-- The fields of the record a derive call reports results through: the
dual-purpose `dkm` buffer and the validity flag. -/
def coreOut (r : hkdf_data) : List Nat × Nat := (r.dkm, r.validity_success)

/-! ## Helper lemmas -/

theorem bytesOfNatBE_length (n v : Nat) : (bytesOfNatBE n v).length = n := by
  induction n generalizing v with
  | zero => rfl
  | succ k ih => simp [bytesOfNatBE, ih]

theorem sha256_length (msg : List Nat) : (sha256 msg).length = 32 := by
  simp [sha256, bytesOfNatBE_length]

theorem hmacSHA256_length (key msg : List Nat) :
    (hmacSHA256 key msg).length = 32 := by
  simp [hmacSHA256, sha256_length]

theorem hkdfT_succ_length (hm : List Nat → List Nat → List Nat)
    (hLen : Nat) (hhm : ∀ k m, (hm k m).length = hLen)
    (prk info : List Nat) (i : Nat) :
    (hkdfT hm prk info (i + 1)).length = hLen := by
  simp [hkdfT, hhm]

theorem hkdfOKM_length (hm : List Nat → List Nat → List Nat)
    (hLen : Nat) (hhm : ∀ k m, (hm k m).length = hLen)
    (prk info : List Nat) (n : Nat) :
    (hkdfOKM hm prk info n).length = n * hLen := by
  induction n with
  | zero => simp [hkdfOKM]
  | succ k ih =>
      simp [hkdfOKM, ih, hkdfT_succ_length hm hLen hhm, Nat.succ_mul]

theorem hkdfCompute_none_iff (hm : List Nat → List Nat → List Nat)
    (hLen : Nat) (salt ikm info : List Nat) (dkmlenBits : Nat) :
    hkdfCompute hm hLen salt ikm info dkmlenBits = none ↔
      (dkmlenBits = 0 ∨ 255 * (8 * hLen) < dkmlenBits) := by
  unfold hkdfCompute
  split
  · simp_all
  · split <;> simp_all

theorem hkdfCompute_ne_nil (hm : List Nat → List Nat → List Nat)
    (hLen : Nat) (hpos : 0 < hLen) (hhm : ∀ k m, (hm k m).length = hLen)
    (salt ikm info : List Nat) (dkmlenBits : Nat) (hlo : 1 ≤ dkmlenBits)
    (dk : List Nat)
    (hcomp : hkdfCompute hm hLen salt ikm info dkmlenBits = some dk) :
    dk ≠ [] := by
  unfold hkdfCompute at hcomp
  split at hcomp
  · exact absurd hcomp (by simp)
  · split at hcomp
    · exact absurd hcomp (by simp)
    · have hdk := (Option.some_inj.mp hcomp).symm
      have hb : 1 ≤ (dkmlenBits + 7) / 8 :=
        Nat.one_le_div_iff (by omega) |>.mpr (by omega)
      have hn : 1 ≤ ((dkmlenBits + 7) / 8 + (hLen - 1)) / hLen :=
        Nat.one_le_div_iff hpos |>.mpr (by omega)
      have hlen : dk.length ≠ 0 := by
        rw [hdk]
        rw [List.length_take,
            hkdfOKM_length hm hLen hhm
              (hkdfExtract hm hLen salt ikm) info _]
        have : 1 ≤ (((dkmlenBits + 7) / 8 + (hLen - 1)) / hLen) * hLen :=
          Nat.one_le_iff_ne_zero.mpr
            (Nat.mul_ne_zero (by omega) (by omega))
        omega
      intro hnil
      exact hlen (by simp [hnil])

/-! ## Claim theorems -/

set_option maxRecDepth 200000 in
/-- C3: for the RFC 5869 Test Case 1 input (SHA-256, IKM = 22 bytes of
`0x0b`, the 13-byte salt `000102030405060708090a0b0c`, the 10-byte info
`f0f1f2f3f4f5f6f7f8f9`, requested length 336 bits) a generate-mode derive
call succeeds and writes exactly the expected 42-byte derived key
material into the `dkm` buffer. -/
theorem hkdf_rfc5869_tc1 :
    hkdf_backend_impl hkdf_tc1 0 =
      some { hkdf_tc1 with dkm := hkdf_tc1_okm } := by
  decide

/-- C5: with a supported hash, a requested output length of zero, or one
exceeding 255 times the hash output length in bits, is an operational
failure: the derive call returns a nonzero status (`none`), producing no
mutated record and hence writing nothing into the `dkm` buffer. -/
theorem hkdf_length_bounds_fail (d : hkdf_data) (f : flags_t)
    (hm : List Nat → List Nat → List Nat) (hLen : Nat)
    (hhash : hashImpl d.hash = some (hm, hLen))
    (hlen : d.dkmlen = 0 ∨ 255 * (8 * hLen) < d.dkmlen) :
    hkdf_backend_impl d f = none := by
  have hc := (hkdfCompute_none_iff hm hLen d.salt d.z d.info d.dkmlen).mpr hlen
  simp [hkdf_backend_impl, hkdf_derive, hhash, hc]

/-- Witness for C5: requested length `0` on the Test Case 1 record is
rejected with a nonzero status. -/
theorem hkdf_length_bounds_fail_witness :
    hkdf_backend_impl { hkdf_tc1 with dkmlen := 0 } 0 = none :=
  hkdf_length_bounds_fail { hkdf_tc1 with dkmlen := 0 } 0 hmacSHA256 32
    rfl (Or.inl rfl)

/-- C7: `register_hkdf_impl` (modelled with explicit registry state in
place of the C function's `void`-returning global mutation)
unconditionally replaces any previously registered implementation; after
any sequence of registrations ending in `impl`, the registry holds
exactly `impl` and every dispatch uses it, so no earlier implementation
is reachable. -/
theorem register_last_wins (l : List HkdfBackend) (impl : HkdfBackend)
    (d : hkdf_data) (f : flags_t) :
    (∀ st, register_hkdf_impl impl st = some impl) ∧
    registrations (l ++ [impl]) = some impl ∧
    hkdf_dispatch (registrations (l ++ [impl])) d f =
      hkdf_dispatch (some impl) d f := by
  have h1 : registrations (l ++ [impl]) = some impl := by
    simp [registrations, List.foldl_append, register_hkdf_impl]
  exact ⟨fun st => rfl, h1, by rw [h1]⟩

/-- C8: a dispatch before any registration fails fast with the dedicated
`registryMiss` outcome, which is distinct from an operational derivation
failure and from every success outcome (no backend is silently
invoked). -/
theorem dispatch_registry_miss (d : hkdf_data) (f : flags_t) :
    hkdf_dispatch none d f = DispatchResult.registryMiss ∧
    DispatchResult.registryMiss ≠ DispatchResult.opFailure ∧
    ∀ r, DispatchResult.registryMiss ≠ DispatchResult.ok r :=
  ⟨rfl, by decide, fun r h => DispatchResult.noConfusion h⟩

/-- C9: the derive call is a pure function of the record contents and the
flags: two calls on records with identical field contents and identical
flags return identical results (no hidden randomness or environmental
state). -/
theorem derive_deterministic (d d' : hkdf_data) (f f' : flags_t)
    (h1 : d.hash = d'.hash) (h2 : d.dkmlen = d'.dkmlen) (h3 : d.z = d'.z)
    (h4 : d.salt = d'.salt) (h5 : d.info = d'.info) (h6 : d.dkm = d'.dkm)
    (h7 : d.validity_success = d'.validity_success)
    (h8 : d.fixed_info_pattern = d'.fixed_info_pattern)
    (h9 : d.fi_partyU = d'.fi_partyU)
    (h10 : d.fi_partyU_ephem = d'.fi_partyU_ephem)
    (h11 : d.fi_partyV = d'.fi_partyV)
    (h12 : d.fi_partyV_ephem = d'.fi_partyV_ephem)
    (hf : f = f') :
    hkdf_backend_impl d f = hkdf_backend_impl d' f' := by
  have hd : d = d' := by
    cases d
    cases d'
    simp_all
  rw [hd, hf]

/-- Witness for C9: the Test Case 1 record and its field-by-field copy
give the same derive result. -/
theorem derive_deterministic_witness :
    hkdf_backend_impl hkdf_tc1 0 = hkdf_backend_impl hkdf_tc1_again 0 :=
  derive_deterministic hkdf_tc1 hkdf_tc1_again 0 0 rfl rfl rfl rfl rfl rfl
    rfl rfl rfl rfl rfl rfl rfl

/-- C1: in validate mode (non-empty `dkm` buffer on entry), whenever the
inputs can be evaluated the derive call returns success status, writing
`1` into `validity_success` on a byte-for-byte match against the
recomputed key and `0` on a mismatch (a mismatch is a result, not an
operational error); a nonzero status arises only from an operational
problem (unsupported hash identifier or out-of-range requested
length). -/
theorem validate_mode_success_on_mismatch (d : hkdf_data) (f : flags_t)
    (hne : d.dkm ≠ []) :
    (∀ hm hLen dk, hashImpl d.hash = some (hm, hLen) →
        hkdfCompute hm hLen d.salt d.z d.info d.dkmlen = some dk →
        hkdf_backend_impl d f =
          some { d with validity_success := if d.dkm = dk then 1 else 0 }) ∧
    (hkdf_backend_impl d f = none →
        hashImpl d.hash = none ∨
        ∃ hm hLen, hashImpl d.hash = some (hm, hLen) ∧
          (d.dkmlen = 0 ∨ 255 * (8 * hLen) < d.dkmlen)) := by
  constructor
  · intro hm hLen dk hhash hcomp
    simp [hkdf_backend_impl, hkdf_derive, hhash, hcomp, hne]
  · intro hfail
    cases hhash : hashImpl d.hash with
    | none => exact Or.inl rfl
    | some p =>
        obtain ⟨hm, hLen⟩ := p
        refine Or.inr ⟨hm, hLen, rfl, ?_⟩
        simp only [hkdf_backend_impl, hhash, hkdf_derive] at hfail
        cases hcomp : hkdfCompute hm hLen d.salt d.z d.info d.dkmlen with
        | none => exact (hkdfCompute_none_iff hm hLen d.salt d.z d.info d.dkmlen).mp hcomp
        | some dk =>
            rw [hcomp] at hfail
            simp at hfail
            split at hfail <;> simp_all

/-- Witness for C1: the corrupted Test Case 1 record is in validate
mode. -/
theorem validate_mode_success_on_mismatch_witness :
    (∀ hm hLen dk, hashImpl hkdf_tc1_corrupt.hash = some (hm, hLen) →
        hkdfCompute hm hLen hkdf_tc1_corrupt.salt hkdf_tc1_corrupt.z
            hkdf_tc1_corrupt.info hkdf_tc1_corrupt.dkmlen = some dk →
        hkdf_backend_impl hkdf_tc1_corrupt 0 =
          some { hkdf_tc1_corrupt with
                 validity_success :=
                   if hkdf_tc1_corrupt.dkm = dk then 1 else 0 }) ∧
    (hkdf_backend_impl hkdf_tc1_corrupt 0 = none →
        hashImpl hkdf_tc1_corrupt.hash = none ∨
        ∃ hm hLen, hashImpl hkdf_tc1_corrupt.hash = some (hm, hLen) ∧
          (hkdf_tc1_corrupt.dkmlen = 0 ∨
           255 * (8 * hLen) < hkdf_tc1_corrupt.dkmlen)) :=
  validate_mode_success_on_mismatch hkdf_tc1_corrupt 0 (by decide)

/-- C2: exactly one of generate and validate semantics applies per call,
selected solely by the emptiness of the `dkm` buffer at call time: the
mode is `generate` exactly when `dkm` is empty on entry and `validate`
exactly when it is not, two records agreeing on `dkm` select the same
mode whatever their other fields and whatever the flags, and on
evaluable inputs the derive call behaves according to the selected mode
(filling `dkm`, respectively comparing and setting the validity
flag). -/
theorem mode_solely_from_dkm (d d' : hkdf_data) (f : flags_t) :
    (callMode d = HkdfMode.generate ↔ d.dkm = []) ∧
    (callMode d = HkdfMode.validate ↔ d.dkm ≠ []) ∧
    (d.dkm = d'.dkm → callMode d = callMode d') ∧
    (∀ hm hLen dk, hashImpl d.hash = some (hm, hLen) →
        hkdfCompute hm hLen d.salt d.z d.info d.dkmlen = some dk →
        (callMode d = HkdfMode.generate →
          hkdf_backend_impl d f = some { d with dkm := dk }) ∧
        (callMode d = HkdfMode.validate →
          hkdf_backend_impl d f =
            some { d with
                   validity_success := if d.dkm = dk then 1 else 0 })) := by
  refine ⟨?_, ?_, ?_, ?_⟩
  · unfold callMode
    split <;> simp_all
  · unfold callMode
    split <;> simp_all
  · intro h
    unfold callMode
    rw [h]
  · intro hm hLen dk hhash hcomp
    constructor
    · intro hmode
      have hdkm : d.dkm = [] := by
        unfold callMode at hmode
        by_contra hcon
        simp [hcon] at hmode
      simp [hkdf_backend_impl, hkdf_derive, hhash, hcomp, hdkm]
    · intro hmode
      have hdkm : d.dkm ≠ [] := by
        intro hcon
        unfold callMode at hmode
        simp [hcon] at hmode
      simp [hkdf_backend_impl, hkdf_derive, hhash, hcomp, hdkm]

/-- Witness for C2: instantiated at the corrupted Test Case 1 record (in
validate mode) against the generate-mode record. -/
theorem mode_solely_from_dkm_witness :
    (callMode hkdf_tc1_corrupt = HkdfMode.generate ↔
      hkdf_tc1_corrupt.dkm = []) ∧
    (callMode hkdf_tc1_corrupt = HkdfMode.validate ↔
      hkdf_tc1_corrupt.dkm ≠ []) ∧
    (hkdf_tc1_corrupt.dkm = hkdf_tc1.dkm →
      callMode hkdf_tc1_corrupt = callMode hkdf_tc1) ∧
    (∀ hm hLen dk, hashImpl hkdf_tc1_corrupt.hash = some (hm, hLen) →
        hkdfCompute hm hLen hkdf_tc1_corrupt.salt hkdf_tc1_corrupt.z
            hkdf_tc1_corrupt.info hkdf_tc1_corrupt.dkmlen = some dk →
        (callMode hkdf_tc1_corrupt = HkdfMode.generate →
          hkdf_backend_impl hkdf_tc1_corrupt 0 =
            some { hkdf_tc1_corrupt with dkm := dk }) ∧
        (callMode hkdf_tc1_corrupt = HkdfMode.validate →
          hkdf_backend_impl hkdf_tc1_corrupt 0 =
            some { hkdf_tc1_corrupt with
                   validity_success :=
                     if hkdf_tc1_corrupt.dkm = dk then 1 else 0 })) :=
  mode_solely_from_dkm hkdf_tc1_corrupt hkdf_tc1 0

/-- C4: round-trip — on any valid generate-mode input (HMAC primitive of
positive output length `hLen`, requested bit length between `1` and
`255 × 8 × hLen`), the derive call succeeds, and resubmitting the same
inputs with the produced key material as the `dkm` buffer yields a
successful validate-mode call with validity flag `1`. -/
theorem generate_then_validate_roundtrip
    (hm : List Nat → List Nat → List Nat) (hLen : Nat) (d : hkdf_data)
    (f f' : flags_t) (hpos : 0 < hLen)
    (hhm : ∀ k m, (hm k m).length = hLen) (hgen : d.dkm = [])
    (hlo : 1 ≤ d.dkmlen) (hhi : d.dkmlen ≤ 255 * (8 * hLen)) :
    ∃ out, hkdf_derive hm hLen d f = some out ∧
      hkdf_derive hm hLen { d with dkm := out.dkm } f' =
        some { d with dkm := out.dkm, validity_success := 1 } := by
  cases hc : hkdfCompute hm hLen d.salt d.z d.info d.dkmlen with
  | none =>
      have := (hkdfCompute_none_iff hm hLen d.salt d.z d.info d.dkmlen).mp hc
      omega
  | some dk =>
      have hdk : dk ≠ [] :=
        hkdfCompute_ne_nil hm hLen hpos hhm d.salt d.z d.info d.dkmlen hlo dk hc
      refine ⟨{ d with dkm := dk }, ?_, ?_⟩
      · simp [hkdf_derive, hc, hgen]
      · simp [hkdf_derive, hc, hdk]

/-- Witness for C4: the Test Case 1 generate-mode record round-trips
through validate mode with validity flag `1`. -/
theorem generate_then_validate_roundtrip_witness :
    ∃ out, hkdf_derive hmacSHA256 32 hkdf_tc1 0 = some out ∧
      hkdf_derive hmacSHA256 32 { hkdf_tc1 with dkm := out.dkm } 0 =
        some { hkdf_tc1 with dkm := out.dkm, validity_success := 1 } :=
  generate_then_validate_roundtrip hmacSHA256 32 hkdf_tc1 0 0 (by decide)
    hmacSHA256_length (by decide) (by decide) (by decide)

/-- C6: empty-salt equivalence — with a hash of positive output length,
the HKDF computation with an empty salt equals the computation with an
explicit all-zero salt of the hash's output length, and the two derive
calls report the same status and the same `dkm`/validity output, all
other inputs equal. -/
theorem empty_salt_equiv (hm : List Nat → List Nat → List Nat)
    (hLen : Nat) (d : hkdf_data) (f f' : flags_t) (hpos : 0 < hLen) :
    hkdfCompute hm hLen [] d.z d.info d.dkmlen =
      hkdfCompute hm hLen (List.replicate hLen 0) d.z d.info d.dkmlen ∧
    Option.map coreOut (hkdf_derive hm hLen { d with salt := [] } f) =
      Option.map coreOut
        (hkdf_derive hm hLen { d with salt := List.replicate hLen 0 } f') := by
  have hrep : List.replicate hLen (0 : Nat) ≠ [] := by
    simp [List.replicate_eq_nil_iff]
    omega
  have hext : hkdfExtract hm hLen [] d.z =
      hkdfExtract hm hLen (List.replicate hLen 0) d.z := by
    unfold hkdfExtract
    simp [hrep]
  have hcomp : hkdfCompute hm hLen [] d.z d.info d.dkmlen =
      hkdfCompute hm hLen (List.replicate hLen 0) d.z d.info d.dkmlen := by
    unfold hkdfCompute
    rw [hext]
  refine ⟨hcomp, ?_⟩
  cases hc : hkdfCompute hm hLen (List.replicate hLen 0) d.z d.info d.dkmlen with
  | none => simp [hkdf_derive, hcomp.trans hc, hc]
  | some dk =>
      by_cases hdkm : d.dkm = []
      · simp [hkdf_derive, hcomp.trans hc, hc, hdkm, coreOut]
      · simp [hkdf_derive, hcomp.trans hc, hc, hdkm, coreOut]

/-- Witness for C6: instantiated with HMAC-SHA-256 and the Test Case 1
record. -/
theorem empty_salt_equiv_witness :
    hkdfCompute hmacSHA256 32 [] hkdf_tc1.z hkdf_tc1.info hkdf_tc1.dkmlen =
      hkdfCompute hmacSHA256 32 (List.replicate 32 0) hkdf_tc1.z
        hkdf_tc1.info hkdf_tc1.dkmlen ∧
    Option.map coreOut
        (hkdf_derive hmacSHA256 32 { hkdf_tc1 with salt := [] } 0) =
      Option.map coreOut
        (hkdf_derive hmacSHA256 32
          { hkdf_tc1 with salt := List.replicate 32 0 } 0) :=
  empty_salt_equiv hmacSHA256 32 hkdf_tc1 0 0 (by decide)

/-- C10: frame — the five one-step-KDF fields are inert for the (pure
HKDF) derive call: two records agreeing on every other field produce the
same status and the same `dkm`/validity output whatever those five
fields hold, and a successful call returns every one of the five
unchanged. -/
theorem onestep_fields_inert (d d' : hkdf_data) (f : flags_t)
    (h1 : d'.hash = d.hash) (h2 : d'.dkmlen = d.dkmlen) (h3 : d'.z = d.z)
    (h4 : d'.salt = d.salt) (h5 : d'.info = d.info) (h6 : d'.dkm = d.dkm)
    (h7 : d'.validity_success = d.validity_success) :
    (hkdf_backend_impl d f).isSome = (hkdf_backend_impl d' f).isSome ∧
    Option.map coreOut (hkdf_backend_impl d f) =
      Option.map coreOut (hkdf_backend_impl d' f) ∧
    (∀ r, hkdf_backend_impl d f = some r →
      r.fixed_info_pattern = d.fixed_info_pattern ∧
      r.fi_partyU = d.fi_partyU ∧
      r.fi_partyU_ephem = d.fi_partyU_ephem ∧
      r.fi_partyV = d.fi_partyV ∧
      r.fi_partyV_ephem = d.fi_partyV_ephem) := by
  have hmap : Option.map coreOut (hkdf_backend_impl d f) =
      Option.map coreOut (hkdf_backend_impl d' f) := by
    unfold hkdf_backend_impl
    rw [h1]
    cases hh : hashImpl d.hash with
    | none => rfl
    | some p =>
        obtain ⟨hm, hLen⟩ := p
        simp only [hkdf_derive, h2, h3, h4, h5, h6]
        cases hc : hkdfCompute hm hLen d.salt d.z d.info d.dkmlen with
        | none => rfl
        | some dk =>
            by_cases hdkm : d.dkm = []
            · simp [hdkm, coreOut, h7]
            · simp [hdkm, coreOut]
  refine ⟨?_, hmap, ?_⟩
  · have := congrArg Option.isSome hmap
    simpa using this
  · intro r hr
    unfold hkdf_backend_impl at hr
    cases hh : hashImpl d.hash with
    | none => simp [hh] at hr
    | some p =>
        obtain ⟨hm, hLen⟩ := p
        rw [hh] at hr
        simp only [hkdf_derive] at hr
        cases hc : hkdfCompute hm hLen d.salt d.z d.info d.dkmlen with
        | none => simp [hc] at hr
        | some dk =>
            rw [hc] at hr
            by_cases hdkm : d.dkm = [] <;>
              simp [hdkm] at hr <;> simp [hr.symm]

/-- Witness for C10: the Test Case 1 record against its copy with junk in
the five one-step-KDF fields. -/
theorem onestep_fields_inert_witness :
    (hkdf_backend_impl hkdf_tc1 0).isSome =
      (hkdf_backend_impl hkdf_tc1_junkfi 0).isSome ∧
    Option.map coreOut (hkdf_backend_impl hkdf_tc1 0) =
      Option.map coreOut (hkdf_backend_impl hkdf_tc1_junkfi 0) ∧
    (∀ r, hkdf_backend_impl hkdf_tc1 0 = some r →
      r.fixed_info_pattern = hkdf_tc1.fixed_info_pattern ∧
      r.fi_partyU = hkdf_tc1.fi_partyU ∧
      r.fi_partyU_ephem = hkdf_tc1.fi_partyU_ephem ∧
      r.fi_partyV = hkdf_tc1.fi_partyV ∧
      r.fi_partyV_ephem = hkdf_tc1.fi_partyV_ephem) :=
  onestep_fields_inert hkdf_tc1 hkdf_tc1_junkfi 0 rfl rfl rfl rfl rfl rfl rfl
